import Mathlib

/-!
Verification development for the mattersim force-field engine
(`src/mattersim/forcefield/potential.py`).

The file shallowly embeds the parts of `Potential` that the claims are
about: the strain-based structural transform and differentiation engine
(`Potential.forward`), the loss/metric composer (`Potential.loss_calc`),
the single-process and distributed checkpoint/early-stop managers
(`Potential.save_model`, `Potential.save_model_ddp`) together with the
epoch loop of `Potential.train_model`, the multi-head scheduler
(`Potential.train_one_epoch_multi_head`), the degraded checkpoint
restore (`Potential.load`), and the EMA-shadowed validation evaluation
(`Potential.train_one_epoch`, mode `val`).

Real numbers carried by torch tensors are modelled as rationals; tensors
are modelled as functions out of `Fin`-indexed coordinate types or as
lists.  The opaque energy model (`self.model`) and the results of
`torch.autograd.grad` are abstracted as parameters; what `forward` does
with them (which differentiation calls it makes, which keys it fills,
with what arithmetic) is embedded faithfully from the source.
-/

namespace Mattersim

/-- A 3x3 rational matrix, modelling one `3 x 3` slice of a torch tensor. -/
abbrev Mat3 := Matrix (Fin 3) (Fin 3) ℚ

/-- Atom positions: an `N x 3` tensor, one row per atom (the `"atom_pos"` input entry). -/
abbrev PosT (N : ℕ) := Fin N → Fin 3 → ℚ

/-- Per-structure `3 x 3` tensors: the batched cell `input` entry `"cell"`
(shape `B x 3 x 3`), and likewise the strain tensor. -/
abbrev CellT (B : ℕ) := Fin B → Mat3

/-- The unit-conversion constant `160.21766208` from
`potential.py`, line 1011 (eV/A^3 to GPa). -/
def evPerGPa : ℚ := 16021766208 / 100000000

/-- Observable events of one `Potential.forward` call, recorded in source
order: differentiability markings (`requires_grad_(True)`), the in-place
rewrites of the input dict entries, and each `torch.autograd.grad` call
with the set of inputs it differentiates with respect to and its
`create_graph` flag. -/
inductive FwdEvent
  | markPos
  | markStrain
  | setCell
  | setPos
  | setVolume
  | gradCall (wrtPos wrtStrain createGraph : Bool)
  deriving DecidableEq, Repr

/-- Whether an event is a `torch.autograd.grad` call. -/
def FwdEvent.isGradCall : FwdEvent → Bool
  | .gradCall _ _ _ => true
  | _ => false

/-- The opaque energy model together with the gradients that
`torch.autograd.grad` reports for its output.  `energy` abstracts
`self.model.forward(input, dataset_idx)` (a per-structure energy tensor
computed from the, possibly rewritten, positions and cell); `training`
is `self.model.training`; `gradPos` and `gradStrain` abstract the
entries of the tuple returned by `torch.autograd.grad`, with `none`
modelling a `None` gradient (no dependency). -/
structure EnergyModel (B N : ℕ) where
  energy : PosT N → CellT B → ℤ → Fin B → ℚ
  training : Bool
  gradPos : Option (PosT N)
  gradStrain : Option (CellT B)

/-- The result of one `Potential.forward` call: the output dict (key
present iff the `Option` is `some`), the final values of the mutated
input dict entries `"atom_pos"` and `"cell"`, the final value of the
local `volume` variable, and the recorded event trace. -/
structure FwdOutput (B N : ℕ) where
  total_energy : Fin B → ℚ
  forces : Option (PosT N)
  stresses : Option (CellT B)
  posAfter : PosT N
  cellAfter : CellT B
  volumeUsed : Fin B → ℚ
  events : List FwdEvent

/-- `Potential.forward` (potential.py lines 936-1014), generalized over
the initial value of the `strain` tensor, which the source initializes
to `torch.zeros_like(input["cell"])` (see `Potential.forward` below).

`batchOf` is `input` entry `"batch"`: the owning structure of each atom;
`torch.repeat_interleave(strain, input["num_atoms"], dim=0)` is embedded
as `strain (batchOf a)`, using the batch invariant that atoms are laid
out consecutively by owning structure.  The einsum `"bi, bij -> bj"` is
row-vector/matrix multiplication `Matrix.vecMul`, and `torch.eye(3)` is
the identity matrix `1`. -/
def forwardWithStrain (B N : ℕ) (batchOf : Fin N → Fin B)
    (M : EnergyModel B N) (pos : PosT N) (cell : CellT B) (strain : CellT B)
    (include_forces include_stresses : Bool) (dataset_idx : ℤ) :
    FwdOutput B N :=
  -- volume = torch.linalg.det(input["cell"])
  let volume0 : Fin B → ℚ := fun b => (cell b).det
  -- if include_forces is True: input["atom_pos"].requires_grad_(True)
  let ev1 : List FwdEvent := if include_forces then [.markPos] else []
  -- if include_stresses is True: strain.requires_grad_(True);
  --   input["cell"] = input["cell"] @ (eye(3) + strain)
  let cell1 : CellT B :=
    if include_stresses then (fun b => cell b * (1 + strain b)) else cell
  --   strain_augment = repeat_interleave(strain, input["num_atoms"], dim=0)
  --   input["atom_pos"] = einsum("bi, bij -> bj", atom_pos, eye(3) + strain_augment)
  let pos1 : PosT N :=
    if include_stresses then
      (fun a => Matrix.vecMul (pos a) (1 + strain (batchOf a)))
    else pos
  --   volume = torch.linalg.det(input["cell"])
  let volume1 : Fin B → ℚ :=
    if include_stresses then (fun b => (cell1 b).det) else volume0
  let ev2 : List FwdEvent :=
    ev1 ++ (if include_stresses then [.markStrain, .setCell, .setPos, .setVolume] else [])
  -- energies = self.model.forward(input, dataset_idx)
  let energies : Fin B → ℚ := M.energy pos1 cell1 dataset_idx
  -- Only take first derivative if only force is required
  if include_forces = true ∧ include_stresses = false then
    { total_energy := energies
      forces := M.gradPos.map (fun g a i => - g a i)
      stresses := none
      posAfter := pos1
      cellAfter := cell1
      volumeUsed := volume1
      events := ev2 ++ [.gradCall true false M.training] }
  -- Take derivatives up to second order if both forces and stresses are required
  else if include_forces = true ∧ include_stresses = true then
    { total_energy := energies
      forces := M.gradPos.map (fun g a i => - g a i)
      stresses := M.gradStrain.map (fun g b =>
        Matrix.of fun i j => 1 / volume1 b * g b i j * evPerGPa)
      posAfter := pos1
      cellAfter := cell1
      volumeUsed := volume1
      events := ev2 ++ [.gradCall true true M.training] }
  else
    { total_energy := energies
      forces := none
      stresses := none
      posAfter := pos1
      cellAfter := cell1
      volumeUsed := volume1
      events := ev2 }

/-- `Potential.forward`: the strain tensor starts as
`torch.zeros_like(input["cell"])` (potential.py line 940). -/
def forward (B N : ℕ) (batchOf : Fin N → Fin B) (M : EnergyModel B N)
    (pos : PosT N) (cell : CellT B)
    (include_forces include_stresses : Bool) (dataset_idx : ℤ) :
    FwdOutput B N :=
  forwardWithStrain B N batchOf M pos cell (fun _ => 0)
    include_forces include_stresses dataset_idx

/-- The part of a `best_model.pth` checkpoint record that
`Potential.save_model` reads back: the stored value of the selected
metric (`best_model["validation_metrics"][self.saved_name[self.idx]]`)
and the stored `last_epoch`.  `train_model` sets `self.last_epoch =
epoch` and `self.validation_metrics` to the current epoch's metrics
before calling `save_model`, so a best checkpoint written at epoch `e`
records `lastEpoch = e` and the metric value of epoch `e`. -/
structure BestRecord where
  metricVal : ℚ
  lastEpoch : ℕ
  deriving DecidableEq, Repr

/-- A checkpoint file written by one `save_model` / `save_model_ddp`
call: the best model, a periodic `ckpt_<epoch>.pth`, or `last_model.pth`. -/
inductive WriteKind
  | bestW
  | ckptW (epoch : ℕ)
  | lastW
  deriving DecidableEq, Repr

/-- The observable outcome of one `Potential.save_model` call: the
`best_model.pth` record afterwards, the files written, and the returned
early-stop flag. -/
structure SaveOutcome where
  record : Option BestRecord
  writes : List WriteKind
  earlyStop : Bool
  deriving DecidableEq, Repr

/-- `Potential.save_model` (potential.py lines 389-435) for a valid
metric name.  `best` is the current `best_model.pth` record (`none`
models a missing or unreadable file, making `torch.load` raise into the
`except` branch).  Inside the `try` branch the code first overwrites the
best checkpoint when `save_checkpoint` is set and the selected metric
improved on the loaded record, then checks
`epoch > best_model["last_epoch"] + early_stop_patience` against the
record it loaded at entry and returns `True` (skipping the periodic and
last saves) when it holds.  In the `except` branch it saves
unconditionally when `save_checkpoint` is set.  Either way, when not
early-stopping, it writes a periodic checkpoint every `ckpt_interval`
epochs and overwrites `last_model.pth`, both only when
`save_checkpoint` is set. -/
def saveModelStep (save_checkpoint : Bool) (early_stop_patience ckpt_interval : ℕ)
    (best : Option BestRecord) (epoch : ℕ) (m : ℚ) : SaveOutcome :=
  match best with
  | some r =>
      let improved : Prop := save_checkpoint = true ∧ m < r.metricVal
      let record1 : Option BestRecord :=
        if improved then some ⟨m, epoch⟩ else some r
      let w1 : List WriteKind := if improved then [.bestW] else []
      if r.lastEpoch + early_stop_patience < epoch then
        { record := record1, writes := w1, earlyStop := true }
      else
        { record := record1
          writes := w1 ++
            (if save_checkpoint = true ∧ epoch % ckpt_interval = 0 then
              [.ckptW epoch] else []) ++
            (if save_checkpoint = true then [.lastW] else [])
          earlyStop := false }
  | none =>
      { record := if save_checkpoint = true then some ⟨m, epoch⟩ else none
        writes :=
          (if save_checkpoint = true then [.bestW] else []) ++
          (if save_checkpoint = true ∧ epoch % ckpt_interval = 0 then
            [.ckptW epoch] else []) ++
          (if save_checkpoint = true then [.lastW] else [])
        earlyStop := false }

/-- The epoch loop of `Potential.train_model` (single-process branch,
potential.py lines 236-387) reduced to its checkpoint/early-stop
effects: at each epoch the validation metric is computed and
`save_model` is invoked; the loop breaks as soon as `save_model`
returns `True`.  `metric e` is the selected validation metric of epoch
`e`; the result is the epoch at which the loop broke, or `none` if the
epoch budget (`fuel`) ran out first. -/
def trainLoop (save_checkpoint : Bool) (early_stop_patience ckpt_interval : ℕ)
    (metric : ℕ → ℚ) : Option BestRecord → ℕ → ℕ → Option ℕ
  | _, _, 0 => none
  | best, epoch, fuel + 1 =>
    let o := saveModelStep save_checkpoint early_stop_patience ckpt_interval
      best epoch (metric epoch)
    if o.earlyStop then some epoch
    else trainLoop save_checkpoint early_stop_patience ckpt_interval metric
      o.record (epoch + 1) fuel

/-- Elementwise division of a per-structure tensor by the per-structure
atom counts: `graph_batch.energy / graph_batch.num_atoms` and
`result["total_energy"] / graph_batch.num_atoms` in `loss_calc`. -/
def perAtom (xs num_atoms : List ℚ) : List ℚ :=
  (xs.zip num_atoms).map fun p => p.1 / p.2

/-- `torch.nn.L1Loss()`: the mean absolute difference over all
elements (tensors flattened to lists). -/
def l1Loss (pred gt : List ℚ) : ℚ :=
  ((pred.zip gt).map fun p => |p.1 - p.2|).sum / ((pred.zip gt).length : ℚ)

/-- `Potential.loss_calc` (potential.py lines 837-873) for the
non-graphormer model kinds.  Tensors are flattened to rational lists;
the configurable loss object (`torch.nn.MSELoss()` by default) is the
abstract function `lossFn`.  The code initializes the loss and the three
MAE slots to zero and then accumulates one term per included quantity,
in source order: the energy term on per-atom energies, the force term on
raw forces scaled by `loss_f`, the stress term on raw stresses scaled by
`loss_s`; each MAE is an unweighted `L1Loss` of the same pair. -/
def loss_calc (lossFn : List ℚ → List ℚ → ℚ)
    (include_energy include_forces include_stresses : Bool)
    (loss_f loss_s : ℚ) (energy num_atoms total_energy : List ℚ)
    (f_gt f_pred s_gt s_pred : List ℚ) : ℚ × ℚ × ℚ × ℚ :=
  let e_mae0 : ℚ := 0
  let f_mae0 : ℚ := 0
  let s_mae0 : ℚ := 0
  let loss0 : ℚ := 0
  let e_gt := perAtom energy num_atoms
  let e_pred := perAtom total_energy num_atoms
  let loss1 := if include_energy then loss0 + lossFn e_pred e_gt else loss0
  let e_mae1 := if include_energy then l1Loss e_pred e_gt else e_mae0
  let loss2 := if include_forces then loss1 + lossFn f_pred f_gt * loss_f else loss1
  let f_mae1 := if include_forces then l1Loss f_pred f_gt else f_mae0
  let loss3 := if include_stresses then loss2 + lossFn s_pred s_gt * loss_s else loss2
  let s_mae1 := if include_stresses then l1Loss s_pred s_gt else s_mae0
  (loss3, e_mae1, f_mae1, s_mae1)

/-- Modelled from the spec: the `average_parameters` context manager of
the external torch_ema collaborator (not part of this repository) used
by `train_one_epoch` in `val` mode; per the spec it temporarily swaps
the EMA shadow weights into the model, runs the body under them, and
restores the stored raw weights afterwards. -/
def averageParametersScope {Params R : Type} (shadow : Params) (params : Params)
    (body : Params → R) : R × Params :=
  let stored := params
  let result := body shadow
  (result, stored)

/-- The validation branch of `Potential.train_one_epoch` (potential.py
lines 593-611) reduced to its parameter-state effects: for each batch
the forward call is evaluated inside `self.ema.average_parameters()`.
`fwd` abstracts `self.forward` as a function of the model parameters in
place at call time; the result is the list of per-batch forward results
together with the final raw model parameters. -/
def valEpochForward {Params Batch R : Type} (shadow : Params)
    (fwd : Params → Batch → R) : Params → List Batch → List R × Params
  | params, [] => ([], params)
  | params, b :: bs =>
    let step := averageParametersScope shadow params (fun p => fwd p b)
    let rest := valEpochForward shadow fwd step.2 bs
    (step.1 :: rest.1, rest.2)

/-- `self.best_metric = 10` in `Potential.__init__` (potential.py line 99). -/
def initBestMetric : ℚ := 10

/-- The observable outcome of one `Potential.save_model_ddp` call: the
in-memory `best_metric` afterwards, the files written, and the returned
early-stop flag (always false in this variant). -/
structure DdpOutcome where
  best : ℚ
  writes : List WriteKind
  earlyStop : Bool
  deriving DecidableEq, Repr

/-- `Potential.save_model_ddp` (potential.py lines 437-472) for a valid
metric name: the selected metric is compared against the in-memory
`self.best_metric` (no re-read from disk); on strict improvement
`best_metric` is updated and, when persistence is on and the process is
rank 0, the best checkpoint is written; rank 0 additionally writes the
periodic checkpoint on interval epochs and `last_model.pth` when
persistence is on; the call always returns `False`. -/
def saveModelDdpStep (save_checkpoint : Bool) (rank : Option ℕ)
    (ckpt_interval : ℕ) (best : ℚ) (epoch : ℕ) (m : ℚ) : DdpOutcome :=
  let best1 := if m < best then m else best
  let w1 : List WriteKind :=
    if m < best ∧ save_checkpoint = true ∧ rank = some 0 then [.bestW] else []
  let w2 : List WriteKind :=
    if rank = some 0 ∧ save_checkpoint = true then
      (if epoch % ckpt_interval = 0 then [.ckptW epoch] else []) ++ [.lastW]
    else []
  { best := best1, writes := w1 ++ w2, earlyStop := false }

/-- The per-epoch best-checkpoint-write flags over a distributed run:
`save_model_ddp` is called once per epoch with the selected metrics
`ms`, threading `best_metric` from its starting value; entry `e` is
whether the call of epoch `e` wrote `best_model.pth`. -/
def ddpBestWrites (save_checkpoint : Bool) (rank : Option ℕ)
    (ckpt_interval : ℕ) : ℚ → ℕ → List ℚ → List Bool
  | _, _, [] => []
  | best, epoch, m :: ms =>
    let o := saveModelDdpStep save_checkpoint rank ckpt_interval best epoch m
    o.writes.contains WriteKind.bestW ::
      ddpBestWrites save_checkpoint rank ckpt_interval o.best (epoch + 1) ms

/-- The running minimum that `self.best_metric` tracks: starting from
`b`, it is replaced by each metric that is strictly below it. -/
def runningBestFrom (b : ℚ) (ms : List ℚ) : ℚ :=
  ms.foldl (fun acc m => if m < acc then m else acc) b

/-- One auxiliary entry (`optimizer`, `scheduler`, `ema`) of a stored
checkpoint record as seen by the restore logic of `Potential.load`:
`stateDict s` is a well-formed state dict restoring state `s`;
`legacyObject s` is a legacy record that stored a whole torch object,
so the direct `load_state_dict(entry)` call raises but the fallback
`load_state_dict(entry.state_dict())` recovers `s`; `corrupt` makes
both attempts raise. -/
inductive RestoreEntry (σ : Type)
  | stateDict (s : σ)
  | legacyObject (s : σ)
  | corrupt

/-- The epoch metadata block of a checkpoint: `last_epoch`,
`validation_metrics` (reduced to its selected `loss` entry) and
`description`; `Potential.load` reads the three keys in one `try`. -/
structure TrainMeta where
  last_epoch : ℤ
  val_loss : ℚ
  descr : String

/-- A stored checkpoint record as read by `Potential.load`; `meta =
none` models a legacy record where reading the epoch metadata keys
raises. -/
structure CheckpointRecord (W O S E : Type) where
  model_name : String
  model : W
  optimizer : RestoreEntry O
  scheduler : RestoreEntry S
  ema : RestoreEntry E
  meta : Option TrainMeta

/-- The scheduler produced by `Potential.load`: either restored state or
the name of a default scheduler kind for `Potential.__init__` to build. -/
inductive SchedulerResult (σ : Type)
  | restored (s : σ)
  | named (kind : String)

/-- The arguments `Potential.load` assembles for the `Potential`
constructor after restoring a checkpoint. -/
structure LoadResult (W O S E : Type) where
  weights : W
  optimizer : Option O
  scheduler : SchedulerResult S
  last_epoch : ℤ
  val_loss : ℚ
  descr : String
  ema : Option E

/-- The optimizer restore chain of `Potential.load` (lines 1077-1085):
direct `load_state_dict`, then the `state_dict()` fallback, then the
`None` sentinel. -/
def restoreOptimizer {O : Type} : RestoreEntry O → Option O
  | .stateDict s => some s
  | .legacyObject s => some s
  | .corrupt => none

/-- The scheduler restore chain of `Potential.load` (lines 1086-1092):
direct load, then the `state_dict()` fallback, then the default
`"StepLR"` kind. -/
def restoreScheduler {S : Type} : RestoreEntry S → SchedulerResult S
  | .stateDict s => .restored s
  | .legacyObject s => .restored s
  | .corrupt => .named "StepLR"

/-- The EMA restore of `Potential.load` (lines 1101-1105): a single
`load_state_dict` attempt with no fallback; any failure yields `None`. -/
def restoreEma {E : Type} : RestoreEntry E → Option E
  | .stateDict s => some s
  | .legacyObject _ => none
  | .corrupt => none

/-- The defaults substituted when the epoch metadata keys are missing
(lines 1097-1100): epoch `-1`, metrics with loss `0.0`, empty
description. -/
def defaultMeta : TrainMeta := ⟨-1, 0, ""⟩

/-- `Potential.load` (potential.py lines 1038-1129): asserts the stored
`model_name` equals the requested one, reconstructs the model for the
supported kinds (anything else raises `NotImplementedError`), restores
the weights from the record's `model` entry, and — when
`load_training_state` is set — restores optimizer, scheduler, epoch
metadata and EMA through the individually caught fallback chains.
A `none` result models a raised exception. -/
def loadPotential {W O S E : Type} (model_name : String)
    (ckpt : CheckpointRecord W O S E) (load_training_state : Bool) :
    Option (LoadResult W O S E) :=
  if ckpt.model_name = model_name then
    if model_name = "m3gnet" ∨ model_name = "m3gnet_multi_head" then
      if load_training_state then
        some { weights := ckpt.model
               optimizer := restoreOptimizer ckpt.optimizer
               scheduler := restoreScheduler ckpt.scheduler
               last_epoch := (ckpt.meta.getD defaultMeta).last_epoch
               val_loss := (ckpt.meta.getD defaultMeta).val_loss
               descr := (ckpt.meta.getD defaultMeta).descr
               ema := restoreEma ckpt.ema }
      else
        some { weights := ckpt.model
               optimizer := none
               scheduler := .named "StepLR"
               last_epoch := -1
               val_loss := 0
               descr := ""
               ema := none }
    else none
  else none

/-- The in-place prefix-sum loop of `train_one_epoch_multi_head`
(potential.py lines 724-726): `dataloader_len[i] += dataloader_len[i-1]`
turns the source lengths into cumulative boundaries. -/
def cumulativeLengthsFrom (acc : ℕ) : List ℕ → List ℕ
  | [] => []
  | n :: ns => (acc + n) :: cumulativeLengthsFrom (acc + n) ns

/-- Cumulative boundaries of a list of source lengths. -/
def cumulativeLengths (ns : List ℕ) : List ℕ := cumulativeLengthsFrom 0 ns

/-- The boundary-resolution loop (lines 731-733):
`for dataset_idx, bound in enumerate(dataloader_len): if idx < bound:
break` leaves `dataset_idx` at the first index whose cumulative bound
exceeds `idx`, or at the final index when no bound does (a Python for
loop leaves the loop variable at its last value). -/
def firstBoundFrom (idx : ℕ) : ℕ → List ℕ → ℕ
  | d, [] => d - 1
  | d, b :: bs => if idx < b then d else firstBoundFrom idx (d + 1) bs

/-- Index of the source an index of the flattened space resolves to. -/
def firstBound (bounds : List ℕ) (idx : ℕ) : ℕ := firstBoundFrom idx 0 bounds

/-- `dataloader_iter[dataset_idx].__next__()` (line 735): draw the next
item of source `d`'s own sequential iterator and advance its cursor;
`none` models a raised `StopIteration` on an exhausted iterator. -/
def drawNext {α : Type} (sources : List (List α)) (pos : List ℕ) (d : ℕ) :
    Option α × List ℕ :=
  ((sources.get? d).bind fun src => src.get? (pos.getD d 0),
    pos.set d (pos.getD d 0 + 1))

/-- The scheduling loop body of `train_one_epoch_multi_head`: visit each
shuffled flattened index in order, resolve its source, draw that
source's next item. -/
def multiHeadVisitsAux {α : Type} (sources : List (List α)) (bounds : List ℕ) :
    List ℕ → List ℕ → List (ℕ × Option α)
  | _, [] => []
  | pos, idx :: rest =>
    let d := firstBound bounds idx
    let r := drawNext sources pos d
    (d, r.1) :: multiHeadVisitsAux sources bounds r.2 rest

/-- One epoch of `Potential.train_one_epoch_multi_head` (potential.py
lines 716-735) reduced to its scheduling behavior: the flattened index
list `idx_list` over the summed source lengths is shuffled once per
epoch (taken here as a parameter, an arbitrary permutation of
`range(total)`); each index resolves to the first cumulative boundary
it falls under and the next batch of that source's own sequential
iterator is drawn.  The result lists, in visit order, the source index
and the batch drawn. -/
def multiHeadEpoch {α : Type} (sources : List (List α)) (idx_list : List ℕ) :
    List (ℕ × Option α) :=
  multiHeadVisitsAux sources (cumulativeLengths (sources.map List.length))
    (List.replicate sources.length 0) idx_list

/-- C1: with `include_forces = true` and `include_stresses = true`,
`Potential.forward` makes exactly one `torch.autograd.grad` call, jointly
with respect to the atom positions and the strain tensor (not two
independent calls), and the returned stress equals
`(1 / volume) * strain_gradient * 160.21766208`, where each structure's
strain-gradient slice is divided by that structure's own volume, the
determinant of its (strained) cell. -/
theorem forward_single_joint_grad_call_and_stress_scaling
    (B N : ℕ) (batchOf : Fin N → Fin B) (M : EnergyModel B N)
    (pos : PosT N) (cell : CellT B) (dataset_idx : ℤ) :
    ((forward B N batchOf M pos cell true true dataset_idx).events.filter
        FwdEvent.isGradCall) = [.gradCall true true M.training] ∧
    (forward B N batchOf M pos cell true true dataset_idx).stresses =
      M.gradStrain.map (fun g b => Matrix.of fun i j =>
        1 / (forward B N batchOf M pos cell true true dataset_idx).volumeUsed b *
          g b i j * evPerGPa) ∧
    (forward B N batchOf M pos cell true true dataset_idx).volumeUsed =
      fun b =>
        ((forward B N batchOf M pos cell true true dataset_idx).cellAfter b).det := by
  refine ⟨rfl, rfl, rfl⟩

/-- C4: with `include_stresses = true`, `Potential.forward` starts from a
zero strain tensor, marks it differentiable, rewrites the cell as
`cell * (1 + strain)`, rewrites the atom positions as
`pos * (1 + strain)` with the strain broadcast per atom by its owning
structure, and recomputes each structure's volume as the determinant of
the strained cell after the rewrite; when `include_forces` is also true,
the positions are marked differentiable before the rewrites (the mark
precedes `setPos` in the event trace). -/
theorem forward_strain_transform
    (B N : ℕ) (batchOf : Fin N → Fin B) (M : EnergyModel B N)
    (pos : PosT N) (cell : CellT B) (dataset_idx : ℤ) :
    (∀ f : Bool, forward B N batchOf M pos cell f true dataset_idx =
      forwardWithStrain B N batchOf M pos cell (fun _ => 0) f true dataset_idx) ∧
    (∀ (f : Bool) (strain : CellT B),
      (forwardWithStrain B N batchOf M pos cell strain f true dataset_idx).cellAfter =
        (fun b => cell b * (1 + strain b)) ∧
      (forwardWithStrain B N batchOf M pos cell strain f true dataset_idx).posAfter =
        (fun a => Matrix.vecMul (pos a) (1 + strain (batchOf a))) ∧
      (forwardWithStrain B N batchOf M pos cell strain f true dataset_idx).volumeUsed =
        (fun b =>
          ((forwardWithStrain B N batchOf M pos cell strain f true
              dataset_idx).cellAfter b).det) ∧
      (forwardWithStrain B N batchOf M pos cell strain f true dataset_idx).events =
        (if f then [.markPos] else []) ++
          [.markStrain, .setCell, .setPos, .setVolume] ++
          (if f then [.gradCall true true M.training] else [])) := by
  refine ⟨fun f => rfl, fun f strain => ?_⟩
  cases f <;> exact ⟨rfl, rfl, rfl, rfl⟩

/-- C9: with `include_forces = false` and `include_stresses = true`,
`Potential.forward` places neither a `"stresses"` nor a `"forces"` key in
the output — only `"total_energy"` — even though the strain was marked
differentiable and the cell and positions were rewritten, and no
differentiation call is made at all. -/
theorem forward_no_outputs_without_forces
    (B N : ℕ) (batchOf : Fin N → Fin B) (M : EnergyModel B N)
    (pos : PosT N) (cell : CellT B) (dataset_idx : ℤ) :
    (forward B N batchOf M pos cell false true dataset_idx).forces = none ∧
    (forward B N batchOf M pos cell false true dataset_idx).stresses = none ∧
    (forward B N batchOf M pos cell false true dataset_idx).events =
      [.markStrain, .setCell, .setPos, .setVolume] ∧
    (forward B N batchOf M pos cell false true dataset_idx).total_energy =
      M.energy (forward B N batchOf M pos cell false true dataset_idx).posAfter
        (forward B N batchOf M pos cell false true dataset_idx).cellAfter
        dataset_idx := by
  refine ⟨rfl, rfl, rfl, rfl⟩

/-- Helper for the early-stop claim: starting `k` epochs after the best
record's epoch, with no strict metric improvement inside the patience
window, the loop breaks exactly at epoch `e_best + P + 1`. -/
theorem trainLoop_no_improvement_stops
    (P interval : ℕ) (metric : ℕ → ℚ) (v : ℚ) (e_best : ℕ) :
    ∀ fuel k : ℕ, k ≤ P → P - k < fuel →
    (∀ e, e_best < e → e ≤ e_best + P → ¬ metric e < v) →
    trainLoop true P interval metric (some ⟨v, e_best⟩) (e_best + 1 + k) fuel =
      some (e_best + P + 1) := by
  intro fuel
  induction fuel with
  | zero => intro k _ hf _; omega
  | succ fuel ih =>
    intro k hk hf hno
    by_cases hstop : k = P
    · have hcond : (⟨v, e_best⟩ : BestRecord).lastEpoch + P < e_best + 1 + k := by
        show e_best + P < e_best + 1 + k; omega
      simp only [trainLoop, saveModelStep]
      rw [if_pos hcond]
      simp
      omega
    · have hlt : k < P := Nat.lt_of_le_of_ne hk hstop
      have hcond : ¬ ((⟨v, e_best⟩ : BestRecord).lastEpoch + P < e_best + 1 + k) := by
        show ¬ (e_best + P < e_best + 1 + k); omega
      have hni := hno (e_best + 1 + k) (by omega) (by omega)
      have h := ih (k + 1) (by omega) (by omega) hno
      rw [show e_best + 1 + (k + 1) = e_best + 1 + k + 1 by omega] at h
      simp only [trainLoop, saveModelStep]
      rw [if_neg hcond]
      simpa [hni] using h

/-- C2: in single-process training with patience `P`, when the best
checkpoint on record was saved at epoch `e_best` (so it stores
`last_epoch = e_best`) and the metric does not improve on it inside the
patience window, the epoch loop breaks exactly at the first epoch with
`current_epoch > e_best + P`, namely `e_best + P + 1` — never earlier
and never later (given enough epoch budget). -/
theorem save_model_early_stops_exactly_after_patience
    (P interval fuel : ℕ) (metric : ℕ → ℚ) (v : ℚ) (e_best : ℕ)
    (hno : ∀ e, e_best < e → e ≤ e_best + P → ¬ metric e < v)
    (hfuel : P < fuel) :
    trainLoop true P interval metric (some ⟨v, e_best⟩) (e_best + 1) fuel =
      some (e_best + P + 1) := by
  have h := trainLoop_no_improvement_stops P interval metric v e_best fuel 0
    (Nat.zero_le P) (by omega) hno
  simpa using h

/-- Witness for C2: patience 2, best record saved at epoch 1 with metric
value 5, later metrics constantly 6: the loop starting at epoch 2 stops
exactly at epoch 4 = 1 + 2 + 1. -/
theorem save_model_early_stops_exactly_after_patience_witness :
    trainLoop true 2 10 (fun _ => (6 : ℚ)) (some ⟨5, 1⟩) 2 5 = some 4 := by
  have h := save_model_early_stops_exactly_after_patience 2 10 5
    (fun _ => (6 : ℚ)) 5 1 (fun e _ _ => by norm_num) (by omega)
  simpa using h

/-- C3: with the persistence flag `save_checkpoint` false, one
`save_model` call writes no checkpoint file at all and leaves the best
record untouched, yet still evaluates the early-stop condition: it
returns `True` exactly when a best record exists and the current epoch
exceeds its recorded epoch plus the patience window. -/
theorem save_model_disabled_persistence
    (P interval : ℕ) (best : Option BestRecord) (epoch : ℕ) (m : ℚ) :
    (saveModelStep false P interval best epoch m).writes = [] ∧
    (saveModelStep false P interval best epoch m).record = best ∧
    ((saveModelStep false P interval best epoch m).earlyStop = true ↔
      ∃ r, best = some r ∧ r.lastEpoch + P < epoch) := by
  cases best with
  | none => simp [saveModelStep]
  | some r =>
    by_cases h : r.lastEpoch + P < epoch <;>
      simp [saveModelStep, h]

/-- C5: `loss_calc` computes the energy loss term and energy MAE on
per-atom intensive energies (both predicted and ground-truth totals
divided by the atom counts), the force and stress terms on the raw
quantities without atom-count division, each scaled by its configured
weight only inside the scalar loss; the MAE metrics are unweighted, and
an excluded quantity contributes exactly zero to both the loss and its
MAE slot. -/
theorem loss_calc_composition (lossFn : List ℚ → List ℚ → ℚ)
    (include_energy include_forces include_stresses : Bool)
    (loss_f loss_s : ℚ) (energy num_atoms total_energy : List ℚ)
    (f_gt f_pred s_gt s_pred : List ℚ) :
    loss_calc lossFn include_energy include_forces include_stresses
        loss_f loss_s energy num_atoms total_energy f_gt f_pred s_gt s_pred =
      ((if include_energy then
          lossFn (perAtom total_energy num_atoms) (perAtom energy num_atoms)
        else 0) +
        (if include_forces then loss_f * lossFn f_pred f_gt else 0) +
        (if include_stresses then loss_s * lossFn s_pred s_gt else 0),
       (if include_energy then
          l1Loss (perAtom total_energy num_atoms) (perAtom energy num_atoms)
        else 0),
       (if include_forces then l1Loss f_pred f_gt else 0),
       (if include_stresses then l1Loss s_pred s_gt else 0)) := by
  cases include_energy <;> cases include_forces <;> cases include_stresses <;>
    simp [loss_calc] <;> ring

/-- C8: in validation mode every batch is evaluated with the EMA shadow
weights swapped into the model, and the raw training weights are
restored right after the forward call, so the raw parameters after the
epoch (and, since the statement holds for every starting parameter
value and batch list, after each individual evaluation) are identical
to their values before it. -/
theorem val_epoch_under_ema_shadow {Params Batch R : Type} (shadow : Params)
    (fwd : Params → Batch → R) (params : Params) (batches : List Batch) :
    valEpochForward shadow fwd params batches =
      (batches.map (fwd shadow), params) := by
  induction batches generalizing params with
  | nil => rfl
  | cons b bs ih => simp [valEpochForward, averageParametersScope, ih]

/-- Helper for C10: entry `e` of the best-write flags is exactly whether
metric `e` is strictly below the running minimum of the starting value
and all earlier metrics. -/
theorem ddpBestWrites_get (ckpt_interval : ℕ) :
    ∀ (ms : List ℚ) (b : ℚ) (e0 e : ℕ),
    (ddpBestWrites true (some 0) ckpt_interval b e0 ms).get? e =
      (ms.get? e).map (fun m => decide (m < runningBestFrom b (ms.take e))) := by
  intro ms
  induction ms with
  | nil => intro b e0 e; rfl
  | cons m ms ih =>
    intro b e0 e
    cases e with
    | zero =>
      by_cases h : m < b <;>
        simp [ddpBestWrites, saveModelDdpStep, runningBestFrom, h]
    | succ e =>
      have := ih (if m < b then m else b) (e0 + 1) e
      by_cases h : m < b <;>
        simpa [ddpBestWrites, saveModelDdpStep, runningBestFrom, h] using this

/-- Helper for C10: if no metric ever drops strictly below the running
best's starting value, no best checkpoint is ever written. -/
theorem ddpBestWrites_never (ckpt_interval : ℕ) :
    ∀ (ms : List ℚ) (b : ℚ) (e0 : ℕ), (∀ m ∈ ms, ¬ m < b) →
    ddpBestWrites true (some 0) ckpt_interval b e0 ms =
      List.replicate ms.length false := by
  intro ms
  induction ms with
  | nil => intro b e0 _; rfl
  | cons m ms ih =>
    intro b e0 h
    have hm : ¬ m < b := h m (List.mem_cons_self m ms)
    have hrest := ih b (e0 + 1) (fun x hx => h x (List.mem_cons_of_mem m hx))
    simp [ddpBestWrites, saveModelDdpStep, hm, List.replicate_succ, hrest]

/-- C10: `best_metric` starts at 10 in `Potential.__init__`, so in a
distributed run (rank 0, persistence on) `save_model_ddp` writes a best
checkpoint at epoch `e` exactly when that epoch's selected metric is
strictly below the minimum of 10 and every previously seen metric — in
particular the first best write needs a value strictly below 10, and a
run whose metrics never drop below 10 never writes a best checkpoint. -/
theorem save_model_ddp_best_gate (ckpt_interval : ℕ) (ms : List ℚ) :
    initBestMetric = 10 ∧
    (∀ e : ℕ,
      (ddpBestWrites true (some 0) ckpt_interval initBestMetric 0 ms).get? e =
        (ms.get? e).map
          (fun m => decide (m < runningBestFrom initBestMetric (ms.take e)))) ∧
    ((∀ m ∈ ms, ¬ m < initBestMetric) →
      ddpBestWrites true (some 0) ckpt_interval initBestMetric 0 ms =
        List.replicate ms.length false) := by
  exact ⟨rfl, fun e => ddpBestWrites_get ckpt_interval ms initBestMetric 0 e,
    fun h => ddpBestWrites_never ckpt_interval ms initBestMetric 0 h⟩

/-- Witness for C10: with metrics 12 and 11 (both at least 10) no best
checkpoint is written in either epoch. -/
theorem save_model_ddp_best_gate_witness :
    ddpBestWrites true (some 0) 1 initBestMetric 0 [(12 : ℚ), 11] =
      [false, false] := by
  have h := (save_model_ddp_best_gate 1 [(12 : ℚ), 11]).2.2
    (by intro m hm; fin_cases hm <;> norm_num [initBestMetric])
  simpa using h

/-- C7: loading a checkpoint with `load_training_state = true` does not
raise when an auxiliary entry is corrupted: the weights are still
restored from the record's `model` entry, a doubly-failing optimizer
entry degrades to the `None` sentinel, a failing scheduler restore
degrades to the default `"StepLR"` kind, missing epoch metadata
degrades to epoch `-1` with default metrics, and a failing EMA restore
degrades to `None`. -/
theorem load_degraded_restore {W O S E : Type}
    (ckpt : CheckpointRecord W O S E) (hname : ckpt.model_name = "m3gnet") :
    ∃ r : LoadResult W O S E,
      loadPotential "m3gnet" ckpt true = some r ∧
      r.weights = ckpt.model ∧
      (ckpt.optimizer = RestoreEntry.corrupt → r.optimizer = none) ∧
      (ckpt.scheduler = RestoreEntry.corrupt →
        r.scheduler = SchedulerResult.named "StepLR") ∧
      (ckpt.meta = none →
        r.last_epoch = -1 ∧ r.val_loss = 0 ∧ r.descr = "") ∧
      (ckpt.ema = RestoreEntry.corrupt → r.ema = none) := by
  refine ⟨{ weights := ckpt.model
            optimizer := restoreOptimizer ckpt.optimizer
            scheduler := restoreScheduler ckpt.scheduler
            last_epoch := (ckpt.meta.getD defaultMeta).last_epoch
            val_loss := (ckpt.meta.getD defaultMeta).val_loss
            descr := (ckpt.meta.getD defaultMeta).descr
            ema := restoreEma ckpt.ema }, ?_, rfl, ?_, ?_, ?_, ?_⟩
  · simp [loadPotential, hname]
  · intro h; rw [h]; rfl
  · intro h; rw [h]; rfl
  · intro h; rw [h]; exact ⟨rfl, rfl, rfl⟩
  · intro h; rw [h]; rfl

/-- Witness for C7: a record with every auxiliary entry corrupted and no
epoch metadata still loads, with weights 7 restored and all the
documented degradation sentinels. -/
theorem load_degraded_restore_witness :
    ∃ r : LoadResult ℕ ℕ ℕ ℕ,
      loadPotential "m3gnet"
          (CheckpointRecord.mk "m3gnet" 7 RestoreEntry.corrupt
            RestoreEntry.corrupt RestoreEntry.corrupt none) true = some r ∧
      r.weights = 7 ∧ r.optimizer = none ∧
      r.scheduler = SchedulerResult.named "StepLR" ∧
      r.last_epoch = -1 ∧ r.ema = none := by
  obtain ⟨r, h1, h2, h3, h4, h5, h6⟩ := load_degraded_restore
    (CheckpointRecord.mk "m3gnet" 7 RestoreEntry.corrupt
      RestoreEntry.corrupt RestoreEntry.corrupt none) rfl
  exact ⟨r, h1, h2, h3 rfl, h4 rfl, (h5 rfl).1, h6 rfl⟩

/-- Helper for C6: with boundaries `[3, 8]` a flattened index resolves
to source 0 when below 3 and to source 1 otherwise. -/
theorem firstBound_two (idx : ℕ) :
    firstBound [3, 8] idx = if idx < 3 then 0 else 1 := by
  by_cases h3 : idx < 3
  · simp [firstBound, firstBoundFrom, h3]
  · by_cases h8 : idx < 8 <;> simp [firstBound, firstBoundFrom, h3, h8]

/-- Helper for C6: over two sources with boundaries `[3, 8]` and
arbitrary cursors, the visit list is as long as the index list, and the
visits drawn from each source are exactly the next `countP` entries of
that source in their original order. -/
theorem multiHeadVisitsAux_two {α : Type} (s0 s1 : List α) :
    ∀ (idxs : List ℕ) (p0 p1 : ℕ),
    p0 + idxs.countP (fun i => decide (i < 3)) ≤ s0.length →
    p1 + idxs.countP (fun i => !decide (i < 3)) ≤ s1.length →
    (multiHeadVisitsAux [s0, s1] [3, 8] [p0, p1] idxs).length = idxs.length ∧
    ((multiHeadVisitsAux [s0, s1] [3, 8] [p0, p1] idxs).filter
        (fun v => v.1 == 0)).map Prod.snd =
      ((s0.drop p0).take (idxs.countP (fun i => decide (i < 3)))).map some ∧
    ((multiHeadVisitsAux [s0, s1] [3, 8] [p0, p1] idxs).filter
        (fun v => v.1 == 1)).map Prod.snd =
      ((s1.drop p1).take (idxs.countP (fun i => !decide (i < 3)))).map some := by
  intro idxs
  induction idxs with
  | nil => intro p0 p1 _ _; simp [multiHeadVisitsAux]
  | cons idx rest ih =>
    intro p0 p1 h0 h1
    by_cases hlt : idx < 3
    · have hc0 : (idx :: rest).countP (fun i => decide (i < 3)) =
          rest.countP (fun i => decide (i < 3)) + 1 :=
        List.countP_cons_of_pos _ _ (by simpa using hlt)
      have hc1 : (idx :: rest).countP (fun i => !decide (i < 3)) =
          rest.countP (fun i => !decide (i < 3)) :=
        List.countP_cons_of_neg _ _ (by simpa using hlt)
      have hp0 : p0 < s0.length := by rw [hc0] at h0; omega
      have hget : s0.get? p0 = some s0[p0] := by
        rw [List.get?_eq_getElem?, List.getElem?_eq_getElem hp0]
      have hstep : multiHeadVisitsAux [s0, s1] [3, 8] [p0, p1] (idx :: rest) =
          (0, some s0[p0]) ::
            multiHeadVisitsAux [s0, s1] [3, 8] [p0 + 1, p1] rest := by
        simp [multiHeadVisitsAux, drawNext, firstBound_two, hlt, hget,
          List.getD]
      obtain ⟨ihl, ih0, ih1⟩ := ih (p0 + 1) p1
        (by rw [hc0] at h0; omega) (by rw [hc1] at h1; omega)
      have hdrop : s0.drop p0 = s0[p0] :: s0.drop (p0 + 1) :=
        List.drop_eq_getElem_cons hp0
      refine ⟨?_, ?_, ?_⟩
      · rw [hstep]; simp [ihl]
      · rw [hstep, hc0, hdrop]
        rw [List.filter_cons_of_pos (by rfl), List.take_succ_cons,
          List.map_cons, List.map_cons]
        exact congrArg (List.cons (some s0[p0])) ih0
      · rw [hstep, hc1]
        rw [List.filter_cons_of_neg (by simp)]
        exact ih1
    · have hc0 : (idx :: rest).countP (fun i => decide (i < 3)) =
          rest.countP (fun i => decide (i < 3)) :=
        List.countP_cons_of_neg _ _ (by simpa using hlt)
      have hc1 : (idx :: rest).countP (fun i => !decide (i < 3)) =
          rest.countP (fun i => !decide (i < 3)) + 1 :=
        List.countP_cons_of_pos _ _ (by simpa using hlt)
      have hp1 : p1 < s1.length := by rw [hc1] at h1; omega
      have hget : s1.get? p1 = some s1[p1] := by
        rw [List.get?_eq_getElem?, List.getElem?_eq_getElem hp1]
      have hstep : multiHeadVisitsAux [s0, s1] [3, 8] [p0, p1] (idx :: rest) =
          (1, some s1[p1]) ::
            multiHeadVisitsAux [s0, s1] [3, 8] [p0, p1 + 1] rest := by
        simp [multiHeadVisitsAux, drawNext, firstBound_two, hlt, hget,
          List.getD]
      obtain ⟨ihl, ih0, ih1⟩ := ih p0 (p1 + 1)
        (by rw [hc0] at h0; omega) (by rw [hc1] at h1; omega)
      have hdrop : s1.drop p1 = s1[p1] :: s1.drop (p1 + 1) :=
        List.drop_eq_getElem_cons hp1
      refine ⟨?_, ?_, ?_⟩
      · rw [hstep]; simp [ihl]
      · rw [hstep, hc0]
        rw [List.filter_cons_of_neg (by simp)]
        exact ih0
      · rw [hstep, hc1, hdrop]
        rw [List.filter_cons_of_pos (by rfl), List.take_succ_cons,
          List.map_cons, List.map_cons]
        exact congrArg (List.cons (some s1[p1])) ih1

/-- C6: for source lengths `[3, 5]` one multi-head epoch over any
shuffle of the flattened index space `range 8` visits exactly 8
batches, exactly 3 drawn from the first source and 5 from the second,
and each source's batches appear in their original sequential order
(the subsequence of visits of each source is exactly that source),
regardless of the interleaving. -/
theorem multi_head_epoch_schedule {α : Type} (s0 s1 : List α)
    (idx_list : List ℕ) (h0 : s0.length = 3) (h1 : s1.length = 5)
    (hperm : idx_list.Perm (List.range 8)) :
    (multiHeadEpoch [s0, s1] idx_list).length = 8 ∧
    ((multiHeadEpoch [s0, s1] idx_list).filter
        (fun v => v.1 == 0)).map Prod.snd = s0.map some ∧
    ((multiHeadEpoch [s0, s1] idx_list).filter
        (fun v => v.1 == 1)).map Prod.snd = s1.map some ∧
    ((multiHeadEpoch [s0, s1] idx_list).filter (fun v => v.1 == 0)).length = 3 ∧
    ((multiHeadEpoch [s0, s1] idx_list).filter (fun v => v.1 == 1)).length = 5 := by
  have hcnt0 : idx_list.countP (fun i => decide (i < 3)) = 3 := by
    rw [hperm.countP_eq]; rfl
  have hcnt1 : idx_list.countP (fun i => !decide (i < 3)) = 5 := by
    rw [hperm.countP_eq]; rfl
  have hlen : idx_list.length = 8 := by rw [hperm.length_eq]; rfl
  have hme : multiHeadEpoch [s0, s1] idx_list =
      multiHeadVisitsAux [s0, s1] [3, 8] [0, 0] idx_list := by
    simp [multiHeadEpoch, cumulativeLengths, cumulativeLengthsFrom, h0, h1,
      List.replicate]
  obtain ⟨hl, hf0, hf1⟩ := multiHeadVisitsAux_two s0 s1 idx_list 0 0
    (by omega) (by omega)
  rw [hcnt0] at hf0
  rw [hcnt1] at hf1
  have htake0 : (s0.drop 0).take 3 = s0 := by
    rw [List.drop_zero]; exact List.take_of_length_le (by omega)
  have htake1 : (s1.drop 0).take 5 = s1 := by
    rw [List.drop_zero]; exact List.take_of_length_le (by omega)
  refine ⟨by rw [hme, hl, hlen], ?_, ?_, ?_, ?_⟩
  · rw [hme, hf0, htake0]
  · rw [hme, hf1, htake1]
  · rw [hme]
    have hc := congrArg List.length hf0
    simpa [htake0, h0] using hc
  · rw [hme]
    have hc := congrArg List.length hf1
    simpa [htake1, h1] using hc

/-- Witness for C6: two concrete sources of lengths 3 and 5 and one
concrete shuffle of `range 8`. -/
theorem multi_head_epoch_schedule_witness :
    (multiHeadEpoch [[10, 11, 12], [20, 21, 22, 23, 24]]
        [5, 0, 3, 1, 6, 2, 7, 4]).length = 8 ∧
    ((multiHeadEpoch [[10, 11, 12], [20, 21, 22, 23, 24]]
        [5, 0, 3, 1, 6, 2, 7, 4]).filter
        (fun v => v.1 == 0)).map Prod.snd =
      [some 10, some 11, some 12] ∧
    ((multiHeadEpoch [[10, 11, 12], [20, 21, 22, 23, 24]]
        [5, 0, 3, 1, 6, 2, 7, 4]).filter
        (fun v => v.1 == 1)).map Prod.snd =
      [some 20, some 21, some 22, some 23, some 24] ∧
    ((multiHeadEpoch ([[10, 11, 12], [20, 21, 22, 23, 24]] : List (List ℕ))
        [5, 0, 3, 1, 6, 2, 7, 4]).filter (fun v => v.1 == 0)).length = 3 ∧
    ((multiHeadEpoch ([[10, 11, 12], [20, 21, 22, 23, 24]] : List (List ℕ))
        [5, 0, 3, 1, 6, 2, 7, 4]).filter (fun v => v.1 == 1)).length = 5 := by
  have h := multi_head_epoch_schedule [10, 11, 12] [20, 21, 22, 23, 24]
    [5, 0, 3, 1, 6, 2, 7, 4] rfl rfl (by decide)
  simpa using h

end Mattersim
